import Mathlib

/-!
Verification of the GSS-Solver repository (gss_solver.py and main.py).

The numeric type of the Python program (IEEE doubles) is modelled by the
type `FVal`: a finite value carries a rational, and the non-finite results
NaN, +Infinity and -Infinity are separate constructors.  Python's float
comparison — every comparison involving NaN is false, while infinities are
ordered below/above every finite value — is modelled by `flt`.
-/

namespace GSS

/-- Embeds the constant `golden_ratio = 0.381966` of
`GSSolver._generate_iteration_details` (gss_solver.py line 112).  The source
hardcodes the six-digit decimal literal, so the embedding is the exact
rational 0.381966. -/
def tau : ℚ := 381966 / 1000000

/-- Embeds a Python float result: either a finite value (a rational), or
one of the non-finite results NaN, +Infinity, -Infinity. -/
inductive FVal where
  | nan : FVal
  | inf : FVal
  | ninf : FVal
  | fin : ℚ → FVal
  deriving Repr, DecidableEq

/-- Embeds the dict appended to `self.iterations` in
`GSSolver._generate_iteration_details` (gss_solver.py lines 126-135). -/
structure IterationRecord where
  iteration : ℕ
  a : ℚ
  b : ℚ
  x1 : ℚ
  x2 : ℚ
  f_x1 : FVal
  f_x2 : FVal
  interval_width : ℚ
  deriving Repr, DecidableEq

/-- Embeds Python's `<` on float results: any comparison with NaN on either
side is false; `-inf < y` is true for finite `y` and for `+inf`;
`x < +inf` is true for finite `x` and for `-inf`; `+inf` is less than
nothing, nothing is less than `-inf`; finite values compare numerically. -/
def flt : FVal → FVal → Bool
  | FVal.nan, _ => false
  | _, FVal.nan => false
  | _, FVal.ninf => false
  | FVal.inf, _ => false
  | FVal.ninf, _ => true
  | FVal.fin _, FVal.inf => true
  | FVal.fin x, FVal.fin y => decide (x < y)

/-- Embeds the `while (b - a) > tol and iteration < 100` loop of
`GSSolver._generate_iteration_details` (gss_solver.py lines 115-141).
The loop guard `iteration < 100` is encoded structurally by the fuel
argument, with `fuel = 100 - iteration` at every call (entry point
`generate_iteration_details` starts at iteration 0 with fuel 100).
Returns the appended records together with the final working bounds. -/
def genIters (f : ℚ → FVal) (tol : ℚ) : ℚ → ℚ → ℕ → ℕ → List IterationRecord × ℚ × ℚ
  | a, b, _, 0 => ([], a, b)
  | a, b, iteration, fuel + 1 =>
    if tol < b - a then
      let it := iteration + 1
      let x1 := a + (1 - tau) * (b - a)
      let x2 := a + tau * (b - a)
      let fx1 := f x1
      let fx2 := f x2
      let r : IterationRecord := ⟨it, a, b, x1, x2, fx1, fx2, b - a⟩
      if flt fx1 fx2 then
        let res := genIters f tol a x2 it fuel
        (r :: res.1, res.2)
      else
        let res := genIters f tol x1 b it fuel
        (r :: res.1, res.2)
    else ([], a, b)

/-- Embeds `GSSolver._generate_iteration_details(func, a, b, tol)`:
the loop starts with `iteration = 0` and runs while `iteration < 100`,
that is, with fuel 100. -/
def generate_iteration_details (f : ℚ → FVal) (a b tol : ℚ) :
    List IterationRecord × ℚ × ℚ :=
  genIters f tol a b 0 100

/-- Counting wrapper: number of calls to `f` made by `genIters` (the body
evaluates `f` exactly twice per executed iteration, at `x1` and at `x2`). -/
def genItersCount (f : ℚ → FVal) (tol : ℚ) : ℚ → ℚ → ℕ → ℕ
  | _, _, 0 => 0
  | a, b, fuel + 1 =>
    if tol < b - a then
      let x1 := a + (1 - tau) * (b - a)
      let x2 := a + tau * (b - a)
      2 + (if flt (f x1) (f x2) then genItersCount f tol a x2 fuel
           else genItersCount f tol x1 b fuel)
    else 0

/-- Number of objective evaluations performed by a full run of
`_generate_iteration_details` (iteration 0, fuel 100). -/
def evalCount (f : ℚ → FVal) (a b tol : ℚ) : ℕ :=
  genItersCount f tol a b 100

/-- Embeds `GSSolver.golden_section_search` (gss_solver.py lines 48-100)
restricted to its in-repository algorithmic content: the bounds validation
`if a >= b: raise ValueError(...)` (lines 66-68) and the call to
`_generate_iteration_details` (line 98).  The SciPy call
`minimize_scalar(..., method='golden')` is an external library and is not
part of this repository; its output fields do not affect the validated
bounds or the iteration trace. -/
def golden_section_search (f : ℚ → FVal) (a b tol : ℚ) :
    Except String (List IterationRecord × ℚ × ℚ) :=
  if b ≤ a then Except.error "Left bound must be less than right bound"
  else Except.ok (generate_iteration_details f a b tol)

section StepLemmas

variable (f : ℚ → FVal) (tol a b : ℚ) (iter fuel : ℕ)

theorem genIters_stop (h : ¬ tol < b - a) :
    genIters f tol a b iter fuel = ([], a, b) := by
  cases fuel with
  | zero => rfl
  | succ n => simp only [genIters, if_neg h]

theorem genIters_go_lt
    (h : tol < b - a)
    (h2 : flt (f (a + (1 - tau) * (b - a))) (f (a + tau * (b - a))) = true) :
    genIters f tol a b iter (fuel + 1) =
      (⟨iter + 1, a, b, a + (1 - tau) * (b - a), a + tau * (b - a),
          f (a + (1 - tau) * (b - a)), f (a + tau * (b - a)), b - a⟩ ::
        (genIters f tol a (a + tau * (b - a)) (iter + 1) fuel).1,
        (genIters f tol a (a + tau * (b - a)) (iter + 1) fuel).2) := by
  simp only [genIters, if_pos h, h2, if_pos]

theorem genIters_go_ge
    (h : tol < b - a)
    (h2 : flt (f (a + (1 - tau) * (b - a))) (f (a + tau * (b - a))) = false) :
    genIters f tol a b iter (fuel + 1) =
      (⟨iter + 1, a, b, a + (1 - tau) * (b - a), a + tau * (b - a),
          f (a + (1 - tau) * (b - a)), f (a + tau * (b - a)), b - a⟩ ::
        (genIters f tol (a + (1 - tau) * (b - a)) b (iter + 1) fuel).1,
        (genIters f tol (a + (1 - tau) * (b - a)) b (iter + 1) fuel).2) := by
  simp only [genIters, if_pos h, h2, Bool.false_eq_true, if_neg, not_false_iff]

end StepLemmas

theorem tau_pos : (0:ℚ) < tau := by norm_num [tau]

theorem tau_lt_half : tau < 1 / 2 := by norm_num [tau]

theorem genIters_length_le (f : ℚ → FVal) (tol : ℚ) :
    ∀ (fuel : ℕ) (a b : ℚ) (iter : ℕ),
      (genIters f tol a b iter fuel).1.length ≤ fuel := by
  intro fuel
  induction fuel with
  | zero => intro a b iter; simp [genIters]
  | succ n ih =>
    intro a b iter
    simp only [genIters]
    split
    · split
      · simpa using Nat.succ_le_succ (ih a _ (iter + 1))
      · simpa using Nat.succ_le_succ (ih _ b (iter + 1))
    · simp

theorem genIters_final (f : ℚ → FVal) (tol : ℚ) :
    ∀ (fuel : ℕ) (a b : ℚ) (iter : ℕ),
      (genIters f tol a b iter fuel).2.2 - (genIters f tol a b iter fuel).2.1 ≤ tol ∨
        (genIters f tol a b iter fuel).1.length = fuel := by
  intro fuel
  induction fuel with
  | zero => intro a b iter; right; simp [genIters]
  | succ n ih =>
    intro a b iter
    simp only [genIters]
    split
    · split
      · rcases ih a _ (iter + 1) with h | h
        · left; exact h
        · right; simpa using h
      · rcases ih _ b (iter + 1) with h | h
        · left; exact h
        · right; simpa using h
    · left
      simp only [not_lt] at *
      assumption

theorem genItersCount_eq_two_mul (f : ℚ → FVal) (tol : ℚ) :
    ∀ (fuel : ℕ) (a b : ℚ) (iter : ℕ),
      genItersCount f tol a b fuel = 2 * (genIters f tol a b iter fuel).1.length := by
  intro fuel
  induction fuel with
  | zero => intro a b iter; simp [genIters, genItersCount]
  | succ n ih =>
    intro a b iter
    simp only [genIters, genItersCount]
    split
    · split
      · simp only [List.length_cons]
        rw [ih a _ (iter + 1)]
        ring
      · simp only [List.length_cons]
        rw [ih _ b (iter + 1)]
        ring
    · simp

theorem genIters_length_of_neg (f : ℚ → FVal) (tol : ℚ) (ht : tol < 0) :
    ∀ (fuel : ℕ) (a b : ℚ) (iter : ℕ), 0 < b - a →
      (genIters f tol a b iter fuel).1.length = fuel := by
  intro fuel
  induction fuel with
  | zero => intro a b iter _; simp [genIters]
  | succ n ih =>
    intro a b iter hw
    simp only [genIters]
    rw [if_pos (lt_trans ht hw)]
    have htw : 0 < tau * (b - a) := mul_pos tau_pos hw
    split
    · have : 0 < (a + tau * (b - a)) - a := by linarith
      simpa using ih a (a + tau * (b - a)) (iter + 1) this
    · have : 0 < b - (a + (1 - tau) * (b - a)) := by nlinarith
      simpa using ih (a + (1 - tau) * (b - a)) b (iter + 1) this

theorem genIters_head_width (f : ℚ → FVal) (tol : ℚ)
    (fuel : ℕ) (a b : ℚ) (iter : ℕ) (r : IterationRecord)
    (h : (genIters f tol a b iter fuel).1.head? = some r) :
    r.interval_width = b - a := by
  cases fuel with
  | zero => simp [genIters] at h
  | succ n =>
    simp only [genIters] at h
    by_cases hc : tol < b - a
    · rw [if_pos hc] at h
      by_cases hb : flt (f (a + (1 - tau) * (b - a))) (f (a + tau * (b - a))) = true
      · rw [if_pos hb] at h
        simp only [List.head?_cons, Option.some.injEq] at h
        rw [← h]
      · rw [if_neg hb] at h
        simp only [List.head?_cons, Option.some.injEq] at h
        rw [← h]
    · rw [if_neg hc] at h
      simp at h

theorem genIters_chain (f : ℚ → FVal) (tol : ℚ) :
    ∀ (fuel : ℕ) (a b : ℚ) (iter : ℕ), 0 < b - a →
      List.Chain' (fun r s => s.interval_width < r.interval_width)
        (genIters f tol a b iter fuel).1 := by
  intro fuel
  induction fuel with
  | zero => intro a b iter _; simp [genIters]
  | succ n ih =>
    intro a b iter hw
    have htw : 0 < tau * (b - a) := mul_pos tau_pos hw
    have htw' : tau * (b - a) < b - a := by nlinarith [tau_lt_half]
    simp only [genIters]
    split
    · split
      · refine List.chain'_cons'.mpr ⟨?_, ?_⟩
        · intro s hs
          have := genIters_head_width f tol n a (a + tau * (b - a)) (iter + 1) s hs
          simp only [this]
          simpa using htw'
        · exact ih a (a + tau * (b - a)) (iter + 1) (by linarith)
      · refine List.chain'_cons'.mpr ⟨?_, ?_⟩
        · intro s hs
          have := genIters_head_width f tol n (a + (1 - tau) * (b - a)) b (iter + 1) s hs
          simp only [this]
          have : b - (a + (1 - tau) * (b - a)) = tau * (b - a) := by ring
          simp only [this]
          simpa using htw'
        · exact ih (a + (1 - tau) * (b - a)) b (iter + 1) (by nlinarith)
    · simp

theorem genIters_forall_raw (f : ℚ → FVal) (tol : ℚ) :
    ∀ (fuel : ℕ) (a b : ℚ) (iter : ℕ),
      List.Forall (fun r => r.f_x1 = f r.x1 ∧ r.f_x2 = f r.x2)
        (genIters f tol a b iter fuel).1 := by
  intro fuel
  induction fuel with
  | zero => intro a b iter; simp [genIters]
  | succ n ih =>
    intro a b iter
    simp only [genIters]
    split
    · split
      · exact List.forall_cons _ _ _ |>.mpr ⟨⟨rfl, rfl⟩, ih a _ (iter + 1)⟩
      · exact List.forall_cons _ _ _ |>.mpr ⟨⟨rfl, rfl⟩, ih _ b (iter + 1)⟩
    · simp

/-- Embeds the `SolverResult` response model of main.py (lines 44-49,
98-105) restricted to the numeric fields the claims are about; `plot_data`
is produced independently by `samplePlot` below.  `f_min` is a float
result, so its type is `FVal`. -/
structure SolveResponse where
  x_min : ℚ
  f_min : FVal
  iterations : List IterationRecord
  num_iterations : ℕ
  deriving Repr, DecidableEq

/-- Pointwise float negation: finite values negate numerically, the
infinities swap, and NaN negates to NaN, as in IEEE arithmetic. -/
def negValue : FVal → FVal
  | FVal.nan => FVal.nan
  | FVal.inf => FVal.ninf
  | FVal.ninf => FVal.inf
  | FVal.fin x => FVal.fin (-x)

/-- Embeds the in-place negation `it['f_x1'] = -it['f_x1']`,
`it['f_x2'] = -it['f_x2']` of main.py lines 78-80. -/
def negRecord (r : IterationRecord) : IterationRecord :=
  { r with f_x1 := negValue r.f_x1, f_x2 := negValue r.f_x2 }

/-- Embeds `solve_function` of main.py (lines 57-117).  The string-level
negation `f"-({data.func_str})"` (line 65) composed with sympy compilation
equals pointwise negation of the compiled function, so it is modelled as
`fun x => negValue (f x)` on the compiled objective `f`.  The SciPy-derived
scalar outputs `x_min`, `f_min`, `num_iterations` of the external
`minimize_scalar` call are abstracted as the deterministic parameter
`engine`; the bounds check and the iteration trace are the in-repository
parts.  Lines 76-80 negate `f_min` and the per-record `f_x1`/`f_x2` back
when maximizing; `x_min` is passed through unnegated, as in the source. -/
def solve_function (engine : (ℚ → FVal) → ℚ → ℚ → ℚ → ℚ × FVal × ℕ)
    (f : ℚ → FVal) (mode : String) (a b tol : ℚ) :
    Except String SolveResponse :=
  let func_to_solve := if mode = "maximize" then fun x => negValue (f x) else f
  match golden_section_search func_to_solve a b tol with
  | Except.error e => Except.error e
  | Except.ok res =>
    let em := engine func_to_solve a b tol
    if mode = "maximize" then
      Except.ok ⟨em.1, negValue em.2.1, res.1.map negRecord, em.2.2⟩
    else
      Except.ok ⟨em.1, em.2.1, res.1, em.2.2⟩

/-- Embeds `np.linspace(lo, hi, n)`: `n` evenly spaced points from `lo` to
`hi` inclusive, point `k` at `lo + (hi - lo) * k / (n - 1)`. -/
def linspace (lo hi : ℚ) (n : ℕ) : List ℚ :=
  (List.range n).map (fun k : ℕ => lo + (hi - lo) * (k : ℚ) / ((n : ℚ) - 1))

/-- Embeds the plot sampling of main.py lines 88-96:
`padding = (b - a) * 0.1`, `x_vals = np.linspace(a - padding, b + padding,
500)`, `y_vals = func(x_vals)` evaluated elementwise, both returned in
full as `plot_data`.  The float literal `0.1` is the source's scaling
constant, written `1/10`. -/
def samplePlot (f : ℚ → FVal) (a b : ℚ) : List (ℚ × FVal) :=
  (linspace (a - (b - a) * (1/10)) (b + (b - a) * (1/10)) 500).map
    (fun x => (x, f x))

/-- Compiled form of an everywhere-finite identity-like objective, used as
a concrete test function. -/
def fId : ℚ → FVal := fun x => FVal.fin x

/-- Compiled form of the expression `x**2`. -/
def xsq : ℚ → FVal := fun x => FVal.fin (x * x)

/-- Compiled form of an objective that is NaN on negative arguments, as
`sqrt(x)` is in numpy: the evaluation result is NaN exactly when `x < 0`. -/
def sqrtlike : ℚ → FVal := fun x => if x < 0 then FVal.nan else FVal.fin x

/-- Compiled form of the expression `1/x`: numpy's float division yields
`+inf` at `x = 0` (with a warning, not an exception). -/
def recipOpt : ℚ → FVal := fun x => if x = 0 then FVal.inf else FVal.fin (1 / x)

/-- A concrete engine stub standing for the external SciPy scalar outputs
in witness instantiations. -/
def engine0 : (ℚ → FVal) → ℚ → ℚ → ℚ → ℚ × FVal × ℕ :=
  fun _ _ _ _ => (0, FVal.fin 0, 0)

theorem negValue_negValue (v : FVal) : negValue (negValue v) = v := by
  cases v <;> simp [negValue]

theorem genIters_forall_bounds (f : ℚ → FVal) (tol : ℚ) :
    ∀ (fuel : ℕ) (a b : ℚ) (iter : ℕ), 0 < b - a →
      List.Forall (fun r =>
          r.a < r.x2 ∧ r.x2 < r.x1 ∧ r.x1 < r.b ∧
          r.x1 = r.a + (1 - tau) * (r.b - r.a) ∧ r.x2 = r.a + tau * (r.b - r.a))
        (genIters f tol a b iter fuel).1 := by
  intro fuel
  induction fuel with
  | zero => intro a b iter _; simp [genIters]
  | succ n ih =>
    intro a b iter hw
    have htw : 0 < tau * (b - a) := mul_pos tau_pos hw
    have hx2 : a < a + tau * (b - a) := by linarith
    have hx21 : a + tau * (b - a) < a + (1 - tau) * (b - a) := by
      nlinarith [tau_lt_half]
    have hx1b : a + (1 - tau) * (b - a) < b := by nlinarith
    simp only [genIters]
    split
    · split
      · exact List.forall_cons _ _ _ |>.mpr
          ⟨⟨hx2, hx21, hx1b, rfl, rfl⟩, ih a _ (iter + 1) (by linarith)⟩
      · exact List.forall_cons _ _ _ |>.mpr
          ⟨⟨hx2, hx21, hx1b, rfl, rfl⟩, ih _ b (iter + 1) (by nlinarith)⟩
    · simp

/-- C1 (counterexample): the claim that the objective is evaluated at most
`iteration_count + 2` times fails on the code: with bounds `(0, 1)` and
tolerance `-1` the trace loop runs its full 100 iterations and evaluates
the objective 200 times, exceeding `100 + 2`. -/
theorem c1_counterexample :
    ¬ (evalCount fId 0 1 (-1) ≤ (generate_iteration_details fId 0 1 (-1)).1.length + 2) := by
  have hlen : (genIters fId (-1) 0 1 0 100).1.length = 100 :=
    genIters_length_of_neg fId (-1) (by norm_num) 100 0 1 0 (by norm_num)
  simp only [evalCount, generate_iteration_details]
  rw [genItersCount_eq_two_mul fId (-1) 100 0 1 0, hlen]
  norm_num

/-- C1 (amended): `_generate_iteration_details` evaluates the objective
exactly twice per recorded iteration — both probes are recomputed every
iteration, no value is reused from the previous iteration, and no final
midpoint evaluation is performed — so the total number of evaluations is
`2 * iteration_count`, not `iteration_count + 2`. -/
theorem c1_two_evals_per_iteration :
    ∀ (f : ℚ → FVal) (a b tol : ℚ),
      evalCount f a b tol = 2 * (generate_iteration_details f a b tol).1.length :=
  fun f a b tol => genItersCount_eq_two_mul f tol 100 a b 0

/-- C4: for every search started on a bracket of positive width, the
`interval_width` fields of consecutive iteration records are strictly
decreasing (each iteration multiplies the bracket width by `tau`). -/
theorem c4_monotonic_shrink (f : ℚ → FVal) (a b tol : ℚ) (h : 0 < b - a) :
    List.Chain' (fun r s => s.interval_width < r.interval_width)
      (generate_iteration_details f a b tol).1 :=
  genIters_chain f tol 100 a b 0 h

/-- Witness for C4 at the concrete search `f = id`, bounds `(0, 1)`,
tolerance `1/2`. -/
theorem c4_monotonic_shrink_witness :
    (0:ℚ) < 1 - 0 ∧
      List.Chain' (fun r s => s.interval_width < r.interval_width)
        (generate_iteration_details fId 0 1 (1/2)).1 :=
  ⟨by norm_num, c4_monotonic_shrink fId 0 1 (1/2) (by norm_num)⟩

/-- C5 (counterexample): the claim that the number of function evaluations
never exceeds the cap of 100 fails: with bounds `(0, 1)` and tolerance `-1`
(a < b, "any tolerance") the loop runs 100 iterations and performs 200
evaluations. -/
theorem c5_counterexample : 100 < evalCount fId 0 1 (-1) := by
  have hlen : (genIters fId (-1) 0 1 0 100).1.length = 100 :=
    genIters_length_of_neg fId (-1) (by norm_num) 100 0 1 0 (by norm_num)
  simp only [evalCount]
  rw [genItersCount_eq_two_mul fId (-1) 100 0 1 0, hlen]
  norm_num

/-- C5 (amended): the trace loop always terminates with at most 100
iterations, and at termination either the final bracket width is at most
the tolerance or exactly 100 iterations were executed; the number of
objective evaluations never exceeds twice the cap (two per iteration). -/
theorem c5_termination_cap :
    ∀ (f : ℚ → FVal) (a b tol : ℚ),
      (generate_iteration_details f a b tol).1.length ≤ 100 ∧
      ((generate_iteration_details f a b tol).2.2 -
          (generate_iteration_details f a b tol).2.1 ≤ tol ∨
        (generate_iteration_details f a b tol).1.length = 100) ∧
      evalCount f a b tol ≤ 200 := by
  intro f a b tol
  refine ⟨genIters_length_le f tol 100 a b 0, genIters_final f tol 100 a b 0, ?_⟩
  rw [evalCount, genItersCount_eq_two_mul f tol 100 a b 0]
  have := genIters_length_le f tol 100 a b 0
  omega

/-- C6: `golden_section_search` fails with the invalid-bounds error exactly
when `a >= b`, and in particular the search of `x**2` on `(a, b) = (5, 1)`
fails with that error. -/
theorem c6_invalid_bounds :
    (∀ (f : ℚ → FVal) (a b tol : ℚ),
        (∃ e, golden_section_search f a b tol = Except.error e) ↔ b ≤ a) ∧
      golden_section_search xsq 5 1 (1/10000) =
        Except.error "Left bound must be less than right bound" := by
  constructor
  · intro f a b tol
    by_cases hab : b ≤ a
    · simp [golden_section_search, hab]
    · simp [golden_section_search, hab]
  · rw [golden_section_search, if_pos (by norm_num : (1:ℚ) ≤ 5)]

/-- C2 (counterexample): the claim `x1 < x2` fails on the code already at
the first record of the search over `(0, 1)` with tolerance `3/4`: the code
computes `x1 = a + (1 - tau)(b - a)` (the right probe) and
`x2 = a + tau(b - a)` (the left probe), so `x2 < x1`. -/
theorem c2_counterexample :
    ¬ List.Forall (fun r => r.x1 < r.x2)
        (generate_iteration_details fId 0 1 (3/4)).1 := by
  have hflt : flt (fId ((0:ℚ) + (1 - tau) * (1 - 0))) (fId (0 + tau * (1 - 0))) = false := by
    simp only [fId, flt, decide_eq_false_iff_not, not_lt]
    norm_num [tau]
  simp only [generate_iteration_details]
  rw [show (100:ℕ) = 99 + 1 from by norm_num]
  rw [genIters_go_ge fId (3/4) 0 1 0 99 (by norm_num) hflt]
  rw [genIters_stop fId (3/4) (0 + (1 - tau) * (1 - 0)) 1 (0 + 1) 99
        (by norm_num [tau])]
  simp only [List.Forall, not_lt]
  norm_num [tau]

/-- C2 (amended): for every record, `a ≤ x2 < x1 ≤ b` (all strictly), with
`x1 = a + (1 - tau)(b - a)` the right interior probe and
`x2 = a + tau(b - a)` the left interior probe: relative to the claim the
roles of `x1` and `x2` are swapped by the code. -/
theorem c2_bounds_invariant (f : ℚ → FVal) (a b tol : ℚ) (h : 0 < b - a) :
    List.Forall (fun r =>
        r.a < r.x2 ∧ r.x2 < r.x1 ∧ r.x1 < r.b ∧
        r.x1 = r.a + (1 - tau) * (r.b - r.a) ∧ r.x2 = r.a + tau * (r.b - r.a))
      (generate_iteration_details f a b tol).1 :=
  genIters_forall_bounds f tol 100 a b 0 h

/-- Witness for C2 (amended) at the concrete search `f = id`, bounds
`(0, 1)`, tolerance `1/2`. -/
theorem c2_bounds_invariant_witness :
    (0:ℚ) < 1 - 0 ∧
      List.Forall (fun r =>
          r.a < r.x2 ∧ r.x2 < r.x1 ∧ r.x1 < r.b ∧
          r.x1 = r.a + (1 - tau) * (r.b - r.a) ∧ r.x2 = r.a + tau * (r.b - r.a))
        (generate_iteration_details fId 0 1 (1/2)).1 :=
  ⟨by norm_num, c2_bounds_invariant fId 0 1 (1/2) (by norm_num)⟩

/-- C3 (counterexample): with an objective that is NaN on negative inputs
(as `sqrt` is), searched over `(-1, 1)` with tolerance `3/2`, the left
probe `x2 = -0.236068` evaluates to NaN; the search does not fail — it
returns normally, stores the NaN in the returned record, and the
comparison silently takes the `else` branch. -/
theorem c3_counterexample :
    golden_section_search sqrtlike (-1) 1 (3/2) =
      Except.ok ([⟨1, -1, 1, 59017/250000, -59017/250000,
          FVal.fin (59017/250000), FVal.nan, 2⟩], 59017/250000, 1) := by
  have hflt : flt (sqrtlike ((-1:ℚ) + (1 - tau) * (1 - -1)))
      (sqrtlike (-1 + tau * (1 - -1))) = false := by
    have h2 : sqrtlike ((-1:ℚ) + tau * (1 - -1)) = FVal.nan := by
      simp only [sqrtlike]
      rw [if_pos (by norm_num [tau] : ((-1:ℚ) + tau * (1 - -1)) < 0)]
    rw [h2]
    cases sqrtlike ((-1:ℚ) + (1 - tau) * (1 - -1)) <;> simp [flt]
  rw [golden_section_search, if_neg (by norm_num : ¬ (1:ℚ) ≤ -1)]
  simp only [generate_iteration_details]
  rw [show (100:ℕ) = 99 + 1 from by norm_num]
  rw [genIters_go_ge sqrtlike (3/2) (-1) 1 0 99 (by norm_num) hflt]
  rw [genIters_stop sqrtlike (3/2) (-1 + (1 - tau) * (1 - -1)) 1 (0 + 1) 99
        (by norm_num [tau])]
  norm_num [tau, sqrtlike, IterationRecord.mk.injEq, Prod.mk.injEq]

/-- C3 (amended): the code performs no domain check at all: every recorded
`f_x1`/`f_x2` is the raw evaluation result (NaN and infinities included,
appearing verbatim in returned records) and no error is ever raised; a
comparison with NaN on either side is false, so a NaN silently routes the
bracketing decision to the `else` branch, while infinite values are
ordered as in IEEE (below/above every finite value) and can drive either
branch of the bracketing decision. -/
theorem c3_no_domain_error :
    ∀ (f : ℚ → FVal) (a b tol : ℚ),
      List.Forall (fun r => r.f_x1 = f r.x1 ∧ r.f_x2 = f r.x2)
        (generate_iteration_details f a b tol).1 ∧
      (∀ v : FVal, flt FVal.nan v = false ∧ flt v FVal.nan = false) ∧
      (∀ x : ℚ, flt (FVal.fin x) FVal.inf = true ∧
        flt FVal.ninf (FVal.fin x) = true) ∧
      flt FVal.ninf FVal.inf = true := by
  intro f a b tol
  refine ⟨genIters_forall_raw f tol 100 a b 0, ?_, ?_, ?_⟩
  · intro v
    cases v <;> simp [flt]
  · intro x
    exact ⟨rfl, rfl⟩
  · rfl

theorem forall_raw_negmap (f : ℚ → FVal) (a b tol : ℚ) :
    List.Forall (fun r => r.f_x1 = f r.x1 ∧ r.f_x2 = f r.x2)
      ((generate_iteration_details (fun x => negValue (f x)) a b tol).1.map negRecord) := by
  rw [List.forall_iff_forall_mem]
  intro r hr
  rw [List.mem_map] at hr
  obtain ⟨s, hs, rfl⟩ := hr
  have hraw := genIters_forall_raw (fun x => negValue (f x)) tol 100 a b 0
  rw [List.forall_iff_forall_mem] at hraw
  obtain ⟨h1, h2⟩ := hraw s hs
  constructor
  · simp only [negRecord]
    rw [h1, negValue_negValue]
  · simp only [negRecord]
    rw [h2, negValue_negValue]

/-- C7: maximizing `f` yields an `f_min` equal to the negation of the
`f_min` obtained by minimizing the negated function (for any deterministic
external scalar engine), and the iteration records returned by a maximize
request carry `f_x1`/`f_x2` values of the original, unnegated function. -/
theorem c7_minimize_maximize_symmetry :
    ∀ (engine : (ℚ → FVal) → ℚ → ℚ → ℚ → ℚ × FVal × ℕ)
      (f : ℚ → FVal) (a b tol : ℚ),
      Except.map SolveResponse.f_min (solve_function engine f "maximize" a b tol) =
        Except.map negValue
          (Except.map SolveResponse.f_min
            (solve_function engine (fun x => negValue (f x)) "minimize" a b tol)) ∧
      ∀ resp, solve_function engine f "maximize" a b tol = Except.ok resp →
        List.Forall (fun r => r.f_x1 = f r.x1 ∧ r.f_x2 = f r.x2) resp.iterations := by
  intro engine f a b tol
  by_cases hab : b ≤ a
  · constructor
    · simp [solve_function, golden_section_search, hab, Except.map]
    · intro resp h
      simp [solve_function, golden_section_search, hab] at h
  · constructor
    · simp [solve_function, golden_section_search, hab, Except.map]
    · intro resp h
      simp only [solve_function, golden_section_search, if_neg hab] at h
      simp at h
      rw [← h]
      exact forall_raw_negmap f a b tol

/-- Witness for C7 at the concrete engine stub, `f = id`, bounds `(0, 1)`,
tolerance `2` (the bracket is already within tolerance, so the trace is
empty and the stub supplies the scalar outputs). -/
theorem c7_minimize_maximize_symmetry_witness :
    List.Forall (fun r => r.f_x1 = fId r.x1 ∧ r.f_x2 = fId r.x2)
      (SolveResponse.mk 0 (FVal.fin 0) [] 0).iterations :=
  (c7_minimize_maximize_symmetry engine0 fId 0 1 2).2 ⟨0, FVal.fin 0, [], 0⟩ (by
    have hgen : generate_iteration_details (fun x => negValue (fId x)) 0 1 2 =
        ([], 0, 1) := by
      rw [generate_iteration_details]
      exact genIters_stop _ 2 0 1 0 100 (by norm_num)
    have hneg : negValue (FVal.fin 0) = FVal.fin 0 := by
      simp [negValue]
    norm_num [solve_function, golden_section_search, hgen, engine0, hneg])

/-- C8 (counterexample): sampling `1/x` over bounds `(1, 11)` puts `x = 0`
on the padded grid (`lo = a - (b-a)/10 = 0`); the non-finite value there
(numpy gives `+inf`) is not excluded — the pair appears in the returned
series, whose length is the full 500. -/
theorem c8_counterexample :
    ((0:ℚ), FVal.inf) ∈ samplePlot recipOpt 1 11 ∧
      (samplePlot recipOpt 1 11).length = 500 := by
  constructor
  · have h0 : (0:ℚ) ∈ linspace (1 - (11 - 1) * (1/10)) (11 + (11 - 1) * (1/10)) 500 := by
      rw [linspace]
      refine List.mem_map.mpr ⟨0, List.mem_range.mpr (by norm_num), ?_⟩
      norm_num
    rw [samplePlot]
    refine List.mem_map.mpr ⟨0, h0, ?_⟩
    simp [recipOpt]
  · simp [samplePlot, linspace]

/-- C8 (amended): the sampler evaluates the function on the uniform padded
grid and returns all 500 points with their raw values; points with
non-finite values are included as-is, neither marked nor excluded. -/
theorem c8_sampling_no_exclusion :
    ∀ (f : ℚ → FVal) (a b : ℚ),
      (samplePlot f a b).length = 500 ∧
        List.Forall (fun p => p.2 = f p.1) (samplePlot f a b) := by
  intro f a b
  constructor
  · simp [samplePlot, linspace]
  · rw [List.forall_iff_forall_mem]
    intro p hp
    rw [samplePlot, List.mem_map] at hp
    obtain ⟨x, _, rfl⟩ := hp
    rfl

/-- C9: the hardcoded constant `0.381966` is not `(3 - sqrt 5) / 2` to
double precision: it differs from the exact golden section factor by more
than `10^-8`, many orders of magnitude beyond one double-precision ulp
(about `5.6 * 10^-17` at this magnitude). -/
theorem c9_tau_not_double_precision :
    ((tau : ℚ) : ℝ) ≠ (3 - Real.sqrt 5) / 2 ∧
      1 / 100000000 < (3 - Real.sqrt 5) / 2 - ((tau : ℚ) : ℝ) := by
  have h5 : Real.sqrt 5 < 22360679775 / 10000000000 := by
    rw [Real.sqrt_lt' (by norm_num)]
    norm_num
  have htau : ((tau : ℚ) : ℝ) = 381966 / 1000000 := by norm_num [tau]
  have h2 : (1:ℝ) / 100000000 < (3 - Real.sqrt 5) / 2 - ((tau : ℚ) : ℝ) := by
    rw [htau]
    linarith
  exact ⟨fun heq => by rw [heq] at h2; linarith, h2⟩

/-- C10: any mode string other than exactly "maximize" — misspellings
included — produces exactly the minimize behaviour: same unmodified search,
no negation, no error. -/
theorem c10_unknown_mode_minimizes :
    ∀ (engine : (ℚ → FVal) → ℚ → ℚ → ℚ → ℚ × FVal × ℕ)
      (f : ℚ → FVal) (a b tol : ℚ) (mode : String),
      mode ≠ "maximize" →
        solve_function engine f mode a b tol =
          solve_function engine f "minimize" a b tol := by
  intro engine f a b tol mode h
  simp only [solve_function, if_neg h,
    if_neg (show ¬ ("minimize" = "maximize") from by decide)]

/-- Witness for C10 at the misspelled mode "maximise". -/
theorem c10_unknown_mode_minimizes_witness :
    solve_function engine0 fId "maximise" 0 1 2 =
      solve_function engine0 fId "minimize" 0 1 2 :=
  c10_unknown_mode_minimizes engine0 fId 0 1 2 "maximise" (by decide)

end GSS
